import Mathlib

set_option maxHeartbeats 1000000
set_option maxRecDepth 100000

/-!
Shallow embedding of the patent-application-downloader repository's
retrieval engine, after `src/patent-first-page-downloader.py` and
`src/epo-bulk-downloader.py`.

The front-page downloader's `download_one` is embedded as a pure function
over an oracle context `DlCtx`: `resp i` is the outcome of the i-th
`session.get` on the image URL, `fetch i` the outcome of the i-th
`_get_token_raw` call (POST to the auth endpoint), `tok0` the cached
`_token` at entry, and `fileEx`/`fileSize` the `os.path` observations of
the output path.  Side effects (HTTP requests, token fetches, file writes)
are recorded as an event trace, and a `requests.RequestException` escaping
the function is modelled by `Except.error`.
-/

/-- Mirror of the `DownloadTask` dataclass. -/
structure DownloadTask where
  pub_number : String
  kind : String
  country : String
deriving DecidableEq, Repr

def OUT_DIR : String := "front_pages"

/-- Mirror of `out_path_for`: `os.path.join(OUT_DIR, f"{country}{pub}{kind}_page1.pdf")`. -/
def out_path_for (t : DownloadTask) : String :=
  OUT_DIR ++ "/" ++ t.country ++ t.pub_number ++ t.kind ++ "_page1.pdf"

/-- Mirror of `RETRY_STATUS = {429, 500, 502, 503, 504}`. -/
def RETRY_STATUS : List Nat := [429, 500, 502, 503, 504]

/-- Mirror of `r.content.startswith(b"%PDF")`; 37, 80, 68, 70 are the bytes of `%PDF`. -/
def startsWithPDF : List Nat → Bool
  | b0 :: b1 :: b2 :: b3 :: _ => b0 == 37 && b1 == 80 && b2 == 68 && b3 == 70
  | _ => false

/-- Outcome of one `session.get` on the image URL: a response with a status
and body, or a raised `requests.RequestException`. -/
inductive AttemptResp where
  | ok (status : Nat) (body : List Nat)
  | exn
deriving DecidableEq, Repr

/-- Observable side effects of `download_one`: a POST to the auth endpoint
(`_get_token_raw`), a GET on the image URL, and a write of the output file. -/
inductive NetEv where
  | authFetch
  | httpGet
  | fileWrite (body : List Nat)
deriving DecidableEq, Repr

/-- The tuple `download_one` returns (minus the task and out_path, which are
just echoed back): `(success, status_str, http_status, bytes_written)`. -/
structure DlResult where
  success : Bool
  status_str : String
  http_status : Nat
  bytes_written : Nat
deriving DecidableEq, Repr

/-- Oracle context for one `download_one` call. -/
structure DlCtx where
  fetch : Nat → Except Unit String
  resp : Nat → AttemptResp
  tok0 : Option String
  fileEx : Bool
  fileSize : Nat

/-- Mutable state threaded through the attempt loop: the shared `_token`,
the fetch and request oracle indices, the `http_status` local, and the
event trace so far. -/
structure DlState where
  token : Option String
  fi : Nat
  ri : Nat
  http_status : Nat
  evs : List NetEv

/-- The `for attempt in range(1, 8)` loop body of `download_one`
(lines 144-194), with fuel counting remaining attempts.  Each iteration:
rate-limit, GET (a raised exception backs off and retries), on 401 call
`refresh_token()` (whose own fetch failure is caught by the same
`except requests.RequestException` and also just ends the attempt), on a
`RETRY_STATUS` status back off and retry, on any other non-200 status or a
non-PDF body return terminal `failed`, otherwise write the file and return
terminal `downloaded`.  Exhausted fuel is the post-loop
`return task, False, "failed", http_status, 0, out_path`. -/
def attemptLoop (ctx : DlCtx) : Nat → DlState → DlResult × List NetEv
  | 0, s => (⟨false, "failed", s.http_status, 0⟩, s.evs)
  | n + 1, s =>
    match ctx.resp s.ri with
    | .exn => attemptLoop ctx n { s with ri := s.ri + 1, evs := s.evs ++ [.httpGet] }
    | .ok status body =>
      let s1 : DlState :=
        { s with ri := s.ri + 1, http_status := status, evs := s.evs ++ [.httpGet] }
      if status = 401 then
        match ctx.fetch s1.fi with
        | .ok t =>
          attemptLoop ctx n
            { s1 with token := some t, fi := s1.fi + 1, evs := s1.evs ++ [.authFetch] }
        | .error _ =>
          attemptLoop ctx n { s1 with fi := s1.fi + 1, evs := s1.evs ++ [.authFetch] }
      else if status ∈ RETRY_STATUS then
        attemptLoop ctx n s1
      else if status ≠ 200 then
        (⟨false, "failed", status, 0⟩, s1.evs)
      else if startsWithPDF body = false then
        (⟨false, "failed", status, 0⟩, s1.evs)
      else
        (⟨true, "downloaded", status, body.length⟩, s1.evs ++ [.fileWrite body])

/-- Mirror of `download_one` (lines 121-194).  The pre-check skip (line 130)
returns before any network traffic; otherwise the `headers` dict is built,
whose `get_token_cached()` call (line 136) fetches a token when none is
cached yet — that call sits OUTSIDE the loop's `try`, so a fetch failure
there propagates out of `download_one` (`Except.error`). -/
def download_one (ctx : DlCtx) : Except Unit (DlResult × List NetEv) :=
  if ctx.fileEx = true ∧ ctx.fileSize > 1024 then
    .ok (⟨true, "skipped", 200, ctx.fileSize⟩, [])
  else
    match ctx.tok0 with
    | some t => .ok (attemptLoop ctx 7 ⟨some t, 0, 0, 0, []⟩)
    | none =>
      match ctx.fetch 0 with
      | .ok t => .ok (attemptLoop ctx 7 ⟨some t, 1, 0, 0, [.authFetch]⟩)
      | .error e => .error e

/-- Number of GET requests on the image URL in a trace. -/
def countGets : List NetEv → Nat
  | [] => 0
  | NetEv.httpGet :: rest => countGets rest + 1
  | _ :: rest => countGets rest

/-- The bodies written to the output file, in order. -/
def writtenBodies : List NetEv → List (List Nat)
  | [] => []
  | NetEv.fileWrite b :: rest => b :: writtenBodies rest
  | _ :: rest => writtenBodies rest

/-- The CSV row `run_bulk` appends for a finished task (lines 213-218),
minus the wall-clock timestamp column. -/
structure LogRow where
  country : String
  pub_number : String
  kind : String
  status_str : String
  http_status : Nat
  bytes : Nat
  message : String
  out_path : String
deriving DecidableEq, Repr

/-- Row construction in `run_bulk`: `msg = "ok" if ok else "error"`. -/
def logRowFor (t : DownloadTask) (res : DlResult) : LogRow :=
  ⟨t.country, t.pub_number, t.kind, res.status_str, res.http_status, res.bytes_written,
    if res.success then "ok" else "error", out_path_for t⟩

/-!
`RateLimiter` (lines 39-51).  `wait()` runs read-compute-sleep-write under
`self.lock`, so a run of the program serializes all `wait()` calls; we model
the serialized sequence.  Each call is summarized by two monotone clock
readings: `now` (`time.time()` at entry, line 47) and `after` (`time.time()`
at line 51, recorded into `self.last`).  `time.sleep(d)` suspends for at
least `d` seconds, which constrains `after` when the computed deficit is
positive.  Seconds are modelled as rationals.
-/

/-- Mirror of `self.min_interval = 1.0 / max(rate_per_sec, 0.0001)`. -/
def min_interval (rate_per_sec : ℚ) : ℚ := 1 / max rate_per_sec (1 / 10000)

/-- The two clock readings observed by one `wait()` call. -/
structure WaitObs where
  now : ℚ
  after : ℚ

/-- The timestamp a `wait()` call records into `self.last`. -/
def waitStep (mi last : ℚ) (o : WaitObs) : ℚ := o.after

/-- What a real execution guarantees about one call's clock readings: the
clock is monotone (`last` was read earlier), and when
`wait_for = mi - (now - last) > 0` the call sleeps `wait_for` seconds
before reading `after`. -/
def waitObsValid (mi last : ℚ) (o : WaitObs) : Prop :=
  last ≤ o.now ∧
    (if 0 < mi - (o.now - last) then o.now + (mi - (o.now - last)) ≤ o.after
     else o.now ≤ o.after)

/-- The timestamps successive `wait()` calls record, in order. -/
def runWaits (mi : ℚ) : ℚ → List WaitObs → List ℚ
  | _, [] => []
  | last, o :: os => waitStep mi last o :: runWaits mi (waitStep mi last o) os

/-- All calls of a serialized trace saw valid clock readings. -/
def validTrace (mi : ℚ) : ℚ → List WaitObs → Prop
  | _, [] => True
  | last, o :: os => waitObsValid mi last o ∧ validTrace mi (waitStep mi last o) os

/-!
Embedding of `src/epo-bulk-downloader.py`: `head_content_length`,
`is_fully_downloaded`, `download_stream`, and the JSON key-lookup helpers.
-/

/-- Mirror of `head_content_length` (lines 33-49): each list entry is one
loop iteration's outcome — `.ok cl` when the HEAD round-trip succeeded with
an optional parsed `Content-Length`, `.error` when it raised (caught,
backed off, retried).  An exhausted list is the exhausted `retries` budget:
the function returns `None`. -/
def head_content_length : List (Except Unit (Option Int)) → Option Int
  | [] => none
  | .ok cl :: _ => cl
  | .error _ :: rest => head_content_length rest

/-- The `os.path`/`stat` observations `is_fully_downloaded` makes. -/
structure FileStat where
  pathExists : Bool
  isFile : Bool
  size : Int
deriving DecidableEq, Repr

/-- Mirror of `is_fully_downloaded` (lines 104-125), with the HEAD probe's
per-iteration outcomes passed as `headAttempts`. -/
def is_fully_downloaded (st : FileStat) (headAttempts : List (Except Unit (Option Int))) : Bool :=
  if st.pathExists = false ∨ st.isFile = false then false
  else if st.size ≤ 0 then false
  else
    match head_content_length headAttempts with
    | none => false
    | some remote => if st.size ≠ remote then false else true

/-!
`download_stream` (lines 52-70) streams into
`tmp_path = out_path.with_suffix(out_path.suffix + ".part")` and renames to
`out_path` afterwards.  Since `Path.with_suffix` drops the existing suffix
and appends the new one, and the new one is the existing suffix followed by
`".part"`, the tmp path is exactly the out path with `".part"` appended.
A run is summarized by its filesystem events; an exception (HTTP error on
`raise_for_status`, or a failure mid-iteration) cuts the trace short before
the rename.
-/

def tmp_path (out : String) : String := out ++ ".part"

/-- Filesystem events `download_stream` performs, in program order. -/
inductive FsEvent where
  | openTmp
  | writeTmp (bytes : List Nat)
  | renameTmpToFinal
deriving DecidableEq, Repr

/-- How far one `download_stream` call got. -/
inductive StreamOutcome where
  | httpError
  | interrupted (k : Nat)
  | completed
deriving DecidableEq, Repr

/-- `iter_content` chunks actually written: the loop body skips falsy
(empty) chunks (`if b:`). -/
def nonemptyChunks (chunks : List (List Nat)) : List (List Nat) :=
  chunks.filter fun c => !c.isEmpty

/-- Event trace of one `download_stream` call.  `httpError`:
`raise_for_status` raised before the tmp file was opened.
`interrupted k`: the tmp file was opened (truncating) and the first `k`
non-empty chunks were written before an exception.  `completed`: all chunks
written, then the single `tmp_path.replace(out_path)` rename. -/
def download_stream_events (chunks : List (List Nat)) : StreamOutcome → List FsEvent
  | .httpError => []
  | .interrupted k =>
    FsEvent.openTmp :: ((nonemptyChunks chunks).take k).map FsEvent.writeTmp
  | .completed =>
    FsEvent.openTmp :: (nonemptyChunks chunks).map FsEvent.writeTmp ++ [FsEvent.renameTmpToFinal]

/-- Contents of the two paths involved; `none` = no file at that path. -/
structure Fs where
  finalContent : Option (List Nat)
  tmpContent : Option (List Nat)
deriving DecidableEq, Repr

/-- Effect of one event: `openTmp` truncates the tmp file (`open(..., "wb")`),
`writeTmp` appends to it, the rename moves it over the final path. -/
def applyEvent (fs : Fs) : FsEvent → Fs
  | .openTmp => { fs with tmpContent := some [] }
  | .writeTmp b => { fs with tmpContent := some ((fs.tmpContent.getD []) ++ b) }
  | .renameTmpToFinal => { finalContent := fs.tmpContent, tmpContent := none }

def applyEvents (fs : Fs) (evs : List FsEvent) : Fs := evs.foldl applyEvent fs

/-!
JSON key-lookup helpers (`pick_first`, `find_delivery_id`, and the nested
fallback loop of `main`, lines 145-159).  JSON values are embedded as
`JVal`; objects are association lists (Python dict keys are unique, and
`d.get`/`in` look a key up directly — the first binding wins here).
-/

inductive JVal where
  | null
  | str (s : String)
  | num (n : Int)
  | obj (fields : List (String × JVal))
  | arr (elems : List JVal)

/-- `v is None` in Python, on an embedded JSON value. -/
def JVal.isNull : JVal → Bool
  | .null => true
  | _ => false

/-- `k in d` / `d[k]` on an embedded object. -/
def getKey (d : List (String × JVal)) (k : String) : Option JVal :=
  match d with
  | [] => none
  | (k', v) :: rest => if k' = k then some v else getKey rest k

/-- Mirror of `pick_first` (lines 75-79): first key that is present with a
non-`None` value wins; `None` when no key qualifies. -/
def pick_first (d : List (String × JVal)) : List String → Option JVal
  | [] => none
  | k :: ks =>
    match getKey d k with
    | some v => if v.isNull then pick_first d ks else some v
    | none => pick_first d ks

def delivery_id_keys : List String :=
  ["id", "deliveryId", "delivery_id", "deliveryID", "uuid", "key"]

/-- Mirror of `find_delivery_id` (line 82). -/
def find_delivery_id (d : List (String × JVal)) : Option JVal :=
  pick_first d delivery_id_keys

/-- The nested-fallback loop of `main` (lines 150-155): try each nesting
key in order; when its value is a dict, look the delivery id up inside it;
the first hit wins, otherwise keep going. -/
def nested_delivery_id (d : List (String × JVal)) : List String → Option JVal
  | [] => none
  | k :: ks =>
    match getKey d k with
    | some (JVal.obj fields) =>
      match find_delivery_id fields with
      | some v => some v
      | none => nested_delivery_id d ks
    | _ => nested_delivery_id d ks

/-- Delivery-id resolution as `main` performs it (lines 146-155): top level
first, then one nesting level among `delivery`, `meta`, `data` in order. -/
def resolve_delivery_id (d : List (String × JVal)) : Option JVal :=
  match find_delivery_id d with
  | some v => some v
  | none => nested_delivery_id d ["delivery", "meta", "data"]

/-! ### Helper lemmas about the attempt loop -/

lemma countGets_append (a b : List NetEv) :
    countGets (a ++ b) = countGets a + countGets b := by
  induction a with
  | nil => simp [countGets]
  | cons e rest ih => cases e <;> simp [countGets, ih] <;> omega

lemma writtenBodies_append (a b : List NetEv) :
    writtenBodies (a ++ b) = writtenBodies a ++ writtenBodies b := by
  induction a with
  | nil => simp [writtenBodies]
  | cons e rest ih => cases e <;> simp [writtenBodies, ih]

/-- A run whose every response has a fixed retryable status exhausts the
whole attempt budget and ends `failed` with that status, one GET per
attempt. -/
lemma attemptLoop_retry (ctx : DlCtx) (st : Nat) (b : List Nat)
    (hst : st ∈ RETRY_STATUS) (hresp : ∀ i, ctx.resp i = .ok st b) :
    ∀ n s, attemptLoop ctx (n + 1) s =
      (⟨false, "failed", st, 0⟩, s.evs ++ List.replicate (n + 1) NetEv.httpGet) := by
  have h401 : ¬st = 401 := by
    simp only [RETRY_STATUS, List.mem_cons, List.mem_singleton] at hst
    rcases hst with rfl | rfl | rfl | rfl | rfl | h <;> simp_all
  intro n
  induction n with
  | zero =>
    intro s
    simp [attemptLoop, hresp, h401, hst]
  | succ n ih =>
    intro s
    have step :
        attemptLoop ctx (n + 1 + 1) s =
          attemptLoop ctx (n + 1)
            { s with ri := s.ri + 1, http_status := st, evs := s.evs ++ [.httpGet] } := by
      simp [attemptLoop, hresp, h401, hst]
    rw [step, ih]
    simp [List.replicate_succ, List.append_assoc]

/-- A run whose every response is 401 exhausts the whole attempt budget
(whether or not the refresh fetches succeed) and ends `failed` with status
401; each attempt contributes one GET and one auth fetch. -/
lemma attemptLoop_auth (ctx : DlCtx) (b : List Nat)
    (hresp : ∀ i, ctx.resp i = .ok 401 b) :
    ∀ n s, (attemptLoop ctx (n + 1) s).1 = ⟨false, "failed", 401, 0⟩ ∧
      (attemptLoop ctx (n + 1) s).2.length = s.evs.length + 2 * (n + 1) ∧
      countGets (attemptLoop ctx (n + 1) s).2 = countGets s.evs + (n + 1) := by
  intro n
  induction n with
  | zero =>
    intro s
    cases hf : ctx.fetch s.fi <;>
      simp [attemptLoop, hresp, hf, countGets_append, countGets] <;> omega
  | succ n ih =>
    intro s
    cases hf : ctx.fetch s.fi
    case error e =>
      have step :
          attemptLoop ctx (n + 1 + 1) s =
            attemptLoop ctx (n + 1)
              { s with fi := s.fi + 1, ri := s.ri + 1, http_status := 401, evs := s.evs ++ [.httpGet] ++ [.authFetch] } := by
        simp [attemptLoop, hresp, hf]
      rw [step]
      have := ih { s with fi := s.fi + 1, ri := s.ri + 1, http_status := 401, evs := s.evs ++ [.httpGet] ++ [.authFetch] }
      simpa [countGets_append, countGets, Nat.mul_succ, Nat.add_assoc, Nat.add_comm,
        Nat.add_left_comm] using this
    case ok t =>
      have step :
          attemptLoop ctx (n + 1 + 1) s =
            attemptLoop ctx (n + 1)
              { s with token := some t, fi := s.fi + 1, ri := s.ri + 1, http_status := 401, evs := s.evs ++ [.httpGet] ++ [.authFetch] } := by
        simp [attemptLoop, hresp, hf]
      rw [step]
      have := ih { s with token := some t, fi := s.fi + 1, ri := s.ri + 1, http_status := 401, evs := s.evs ++ [.httpGet] ++ [.authFetch] }
      simpa [countGets_append, countGets, Nat.mul_succ, Nat.add_assoc, Nat.add_comm,
        Nat.add_left_comm] using this

/-- The attempt loop never issues more GETs than it has fuel. -/
lemma attemptLoop_gets_le (ctx : DlCtx) :
    ∀ n s, countGets (attemptLoop ctx n s).2 ≤ countGets s.evs + n := by
  intro n
  induction n with
  | zero => intro s; simp [attemptLoop]
  | succ n ih =>
    intro s
    cases hr : ctx.resp s.ri with
    | exn =>
      have h := ih { s with ri := s.ri + 1, evs := s.evs ++ [.httpGet] }
      simp only [attemptLoop, hr]
      simp [countGets_append, countGets] at h
      omega
    | ok status body =>
      by_cases h401 : status = 401
      · subst h401
        cases hf : ctx.fetch s.fi with
        | ok t =>
          have h := ih { s with token := some t, fi := s.fi + 1, ri := s.ri + 1, http_status := 401, evs := s.evs ++ [.httpGet] ++ [.authFetch] }
          simp only [attemptLoop, hr, hf, if_pos rfl]
          simp [countGets_append, countGets] at h ⊢
          omega
        | error e =>
          have h := ih { s with fi := s.fi + 1, ri := s.ri + 1, http_status := 401, evs := s.evs ++ [.httpGet] ++ [.authFetch] }
          simp only [attemptLoop, hr, hf, if_pos rfl]
          simp [countGets_append, countGets] at h ⊢
          omega
      · by_cases hret : status ∈ RETRY_STATUS
        · have h := ih { s with ri := s.ri + 1, http_status := status, evs := s.evs ++ [.httpGet] }
          simp only [attemptLoop, hr, if_neg h401, if_pos hret]
          simp [countGets_append, countGets] at h ⊢
          omega
        · by_cases h200 : status = 200
          · subst h200
            by_cases hpdf : startsWithPDF body = false <;>
              simp [attemptLoop, hr, h401, hret, hpdf, countGets_append, countGets] <;> try omega
          · simp [attemptLoop, hr, h401, hret, h200, countGets_append, countGets]
            try omega

/-- Frame property of the attempt loop: it either ends other than
`downloaded` having written nothing, or ends `downloaded` having written
exactly one body that passed the PDF check, with status 200 and
`bytes_written` the body's length. -/
lemma attemptLoop_writes (ctx : DlCtx) :
    ∀ n s, writtenBodies s.evs = [] →
      (writtenBodies (attemptLoop ctx n s).2 = [] ∧
        (attemptLoop ctx n s).1.status_str = "failed" ∧
        (attemptLoop ctx n s).1.bytes_written = 0) ∨
      (∃ b, writtenBodies (attemptLoop ctx n s).2 = [b] ∧
        (attemptLoop ctx n s).1 = ⟨true, "downloaded", 200, b.length⟩ ∧
        startsWithPDF b = true) := by
  intro n
  induction n with
  | zero => intro s hs; left; simp [attemptLoop, hs]
  | succ n ih =>
    intro s hs
    cases hr : ctx.resp s.ri with
    | exn =>
      have h := ih { s with ri := s.ri + 1, evs := s.evs ++ [.httpGet] }
        (by simp [writtenBodies_append, writtenBodies, hs])
      simpa only [attemptLoop, hr] using h
    | ok status body =>
      by_cases h401 : status = 401
      · subst h401
        cases hf : ctx.fetch s.fi with
        | ok t =>
          have h := ih { s with token := some t, fi := s.fi + 1, ri := s.ri + 1, http_status := 401, evs := s.evs ++ [.httpGet] ++ [.authFetch] }
            (by simp [writtenBodies_append, writtenBodies, hs])
          simpa only [attemptLoop, hr, hf, if_pos rfl] using h
        | error e =>
          have h := ih { s with fi := s.fi + 1, ri := s.ri + 1, http_status := 401, evs := s.evs ++ [.httpGet] ++ [.authFetch] }
            (by simp [writtenBodies_append, writtenBodies, hs])
          simpa only [attemptLoop, hr, hf, if_pos rfl] using h
      · by_cases hret : status ∈ RETRY_STATUS
        · have h := ih { s with ri := s.ri + 1, http_status := status, evs := s.evs ++ [.httpGet] }
            (by simp [writtenBodies_append, writtenBodies, hs])
          simpa only [attemptLoop, hr, if_neg h401, if_pos hret] using h
        · by_cases h200 : status = 200
          · subst h200
            by_cases hpdf : startsWithPDF body = false
            · left
              simp [attemptLoop, hr, h401, hret, hpdf, writtenBodies_append, writtenBodies, hs]
            · right
              refine ⟨body, ?_⟩
              simp [attemptLoop, hr, h401, hret, hpdf, writtenBodies_append, writtenBodies, hs]
          · left
            simp [attemptLoop, hr, h401, hret, h200, writtenBodies_append, writtenBodies, hs]

example : startsWithPDF [37, 80, 68, 70, 1, 2] = true := by decide
example : startsWithPDF [37, 80] = false := by decide
example :
    download_one
      { fetch := fun _ => .error (), resp := fun _ => .ok 200 [37, 80, 68, 70],
        tok0 := some "t", fileEx := false, fileSize := 0 } =
    .ok (⟨true, "downloaded", 200, 4⟩,
      [NetEv.httpGet, NetEv.fileWrite [37, 80, 68, 70]]) := rfl
example :
    download_one
      { fetch := fun _ => .error (), resp := fun _ => .ok 503 [],
        tok0 := some "t", fileEx := false, fileSize := 0 } =
    .ok (⟨false, "failed", 503, 0⟩, List.replicate 7 NetEv.httpGet) := rfl

/-! ### Concrete contexts used by witnesses and counterexamples -/

/-- Body `b"%PDF"`: a well-formed but tiny (4-byte) payload. -/
def pdfBody : List Nat := [37, 80, 68, 70]

/-- A payload of 1025 bytes starting with the PDF signature. -/
def bigBody : List Nat := 37 :: 80 :: 68 :: 70 :: List.replicate 1021 0

/-- No cached token, auth endpoint failing: the situation of the initial
`get_token_cached()` at line 136. -/
def ctxNoTok : DlCtx where
  fetch := fun _ => .error ()
  resp := fun _ => .exn
  tok0 := none
  fileEx := false
  fileSize := 0

/-- Every GET yields HTTP 503. -/
def ctx503 : DlCtx where
  fetch := fun _ => .error ()
  resp := fun _ => .ok 503 []
  tok0 := some "t"
  fileEx := false
  fileSize := 0

/-- First GET yields HTTP 204 (a 2xx status) with a valid PDF body. -/
def ctx204 : DlCtx where
  fetch := fun _ => .error ()
  resp := fun _ => .ok 204 pdfBody
  tok0 := some "t"
  fileEx := false
  fileSize := 0

/-- Every GET yields HTTP 404 with a valid PDF body. -/
def ctx404 : DlCtx where
  fetch := fun _ => .ok "t2"
  resp := fun _ => .ok 404 pdfBody
  tok0 := some "t"
  fileEx := false
  fileSize := 0

/-- First run on a task whose resource is a 4-byte PDF. -/
def ctxSmall1 : DlCtx where
  fetch := fun _ => .error ()
  resp := fun _ => .ok 200 pdfBody
  tok0 := some "t"
  fileEx := false
  fileSize := 0

/-- Second run on the same task: the 4-byte output of the first run is on
disk. -/
def ctxSmall2 : DlCtx where
  fetch := fun _ => .error ()
  resp := fun _ => .ok 200 pdfBody
  tok0 := some "t"
  fileEx := true
  fileSize := 4

/-- First run on a task whose resource is a 1025-byte PDF. -/
def ctxBig1 : DlCtx where
  fetch := fun _ => .error ()
  resp := fun _ => .ok 200 bigBody
  tok0 := some "t"
  fileEx := false
  fileSize := 0

/-- Second run on the same task: the 1025-byte output is on disk. -/
def ctxBig2 : DlCtx where
  fetch := fun _ => .error ()
  resp := fun _ => .ok 200 bigBody
  tok0 := some "t"
  fileEx := true
  fileSize := 1025

/-- A task whose >1024-byte output already exists; token oracle would fail
and the GET would raise, so any network traffic would be visible. -/
def ctxSkip : DlCtx where
  fetch := fun _ => .error ()
  resp := fun _ => .exn
  tok0 := none
  fileEx := true
  fileSize := 2000

def taskEx : DownloadTask := ⟨"0884389", "A1", "EP"⟩

/-! ### Claims about the front-page downloader -/

/-- Claim C1, counterexample: with no cached token and a failing auth
endpoint, the initial credential fetch performed while building `headers`
(line 136, before the attempt loop and outside its `try`) raises out of
`download_one`, so the fetch failure is NOT contained to a retry attempt
and the exception escapes toward the dispatcher (`fut.result()` re-raises
it in `run_bulk`). -/
theorem c1_initial_fetch_escapes_cex : download_one ctxNoTok = .error () := rfl

/-- Claim C1 (amended): a credential fetch failure during the attempt loop
— the `refresh_token()` triggered by a 401 — is caught by the loop's
`except requests.RequestException` and is fatal only to that attempt:
`download_one` still returns a terminal result, here after all 7 attempts
(part 2).  No exception escapes `download_one` provided a token is already
cached, or the initial pre-loop fetch succeeds (part 1); the claim's
inclusion of a failing *initial* fetch is what fails (see the
counterexample). -/
theorem c1_fetch_failure_scoped :
    (∀ ctx : DlCtx, (ctx.tok0 = none → ∃ t, ctx.fetch 0 = Except.ok t) →
      ∃ out, download_one ctx = Except.ok out) ∧
    (∀ (ctx : DlCtx) (tk : String) (b : List Nat),
      ctx.tok0 = some tk → ctx.fileEx = false →
      (∀ i, ctx.resp i = AttemptResp.ok 401 b) →
      (∀ i, ctx.fetch i = Except.error ()) →
      ∃ evs, download_one ctx = Except.ok (⟨false, "failed", 401, 0⟩, evs) ∧
        countGets evs = 7) := by
  constructor
  · intro ctx h
    unfold download_one
    split
    · exact ⟨_, rfl⟩
    · cases htok : ctx.tok0 with
      | some t => exact ⟨_, rfl⟩
      | none =>
        obtain ⟨t, hf⟩ := h htok
        rw [hf]
        exact ⟨_, rfl⟩
  · intro ctx tk b htok hfile hresp _
    have h := attemptLoop_auth ctx b hresp 6 ⟨some tk, 0, 0, 0, []⟩
    refine ⟨(attemptLoop ctx 7 ⟨some tk, 0, 0, 0, []⟩).2, ?_, ?_⟩
    · simp [download_one, hfile, htok]
      exact Prod.ext h.1 rfl
    · simpa [countGets] using h.2.2

/-- Claim C2: against a resource endpoint that always answers 503,
`download_one` performs exactly 7 GET attempts and returns terminal
`failed` with status 503; and for EVERY oracle (any sequence of response
classifications, 401-only runs included) at most 7 GETs are ever issued. -/
theorem c2_bounded_retries (ctx : DlCtx) (tk : String)
    (htok : ctx.tok0 = some tk) (hfile : ctx.fileEx = false)
    (hresp : ∀ i, ctx.resp i = AttemptResp.ok 503 []) :
    download_one ctx = .ok (⟨false, "failed", 503, 0⟩, List.replicate 7 NetEv.httpGet) ∧
    countGets (List.replicate 7 NetEv.httpGet) = 7 ∧
    ∀ (ctx2 : DlCtx) (res : DlResult) (evs : List NetEv),
      download_one ctx2 = .ok (res, evs) → countGets evs ≤ 7 := by
  refine ⟨?_, by decide, ?_⟩
  · have h := attemptLoop_retry ctx 503 [] (by decide) hresp 6 ⟨some tk, 0, 0, 0, []⟩
    simp only [List.nil_append] at h
    simp [download_one, hfile, htok]
    exact h
  · intro ctx2 res evs h
    unfold download_one at h
    split at h
    · simp only [Except.ok.injEq, Prod.mk.injEq] at h
      rcases h with ⟨-, h2⟩
      rw [← h2]
      simp [countGets]
    · rcases htok2 : ctx2.tok0 with - | t
      · rw [htok2] at h
        rcases hf : ctx2.fetch 0 with e | t2
        · rw [hf] at h; cases h
        · rw [hf] at h
          simp only [Except.ok.injEq] at h
          have h2 : (attemptLoop ctx2 7 ⟨some t2, 1, 0, 0, [.authFetch]⟩).2 = evs := by
            rw [h]
          have hb := attemptLoop_gets_le ctx2 7 ⟨some t2, 1, 0, 0, [.authFetch]⟩
          rw [h2] at hb
          simpa [countGets] using hb
      · rw [htok2] at h
        simp only [Except.ok.injEq] at h
        have h2 : (attemptLoop ctx2 7 ⟨some t, 0, 0, 0, []⟩).2 = evs := by
          rw [h]
        have hb := attemptLoop_gets_le ctx2 7 ⟨some t, 0, 0, 0, []⟩
        rw [h2] at hb
        simpa [countGets] using hb

/-- Witness for C2 at the always-503 oracle. -/
theorem c2_bounded_retries_witness :
    ctx503.tok0 = some "t" ∧ ctx503.fileEx = false ∧
    (∀ i, ctx503.resp i = AttemptResp.ok 503 []) ∧
    (download_one ctx503 = .ok (⟨false, "failed", 503, 0⟩, List.replicate 7 NetEv.httpGet) ∧
      countGets (List.replicate 7 NetEv.httpGet) = 7 ∧
      ∀ (ctx2 : DlCtx) (res : DlResult) (evs : List NetEv),
        download_one ctx2 = .ok (res, evs) → countGets evs ≤ 7) :=
  ⟨rfl, rfl, fun _ => rfl, c2_bounded_retries ctx503 "t" rfl rfl fun _ => rfl⟩

/-- Claim C4, counterexample: HTTP 204 is a 2xx status, yet `download_one`
returns terminal `failed` on it immediately (one GET, nothing written),
because the code's hard-fail guard is `r.status_code != 200`, not
"non-2xx". -/
theorem c4_2xx_fatal_cex :
    download_one ctx204 = .ok (⟨false, "failed", 204, 0⟩, [NetEv.httpGet]) ∧
    200 ≤ 204 ∧ 204 < 300 := ⟨rfl, by norm_num, by norm_num⟩

/-- Claim C4 (amended): with every response carrying status `s` and a valid
PDF body, `download_one` fails immediately on status grounds — terminal
`failed` with status `s` after exactly one GET and no further attempts —
exactly when `s` is not 200, not 401, and not in the retryable set
{429, 500, 502, 503, 504}.  (The claim's "non-2xx" boundary is wrong: the
code hard-fails any non-200, including other 2xx statuses.) -/
theorem c4_fatal_status_iff (ctx : DlCtx) (tk tk2 : String) (s : Nat)
    (htok : ctx.tok0 = some tk) (hfile : ctx.fileEx = false)
    (hfetch : ∀ i, ctx.fetch i = Except.ok tk2)
    (hresp : ∀ i, ctx.resp i = AttemptResp.ok s pdfBody) :
    download_one ctx = .ok (⟨false, "failed", s, 0⟩, [NetEv.httpGet]) ↔
      (s ≠ 200 ∧ s ≠ 401 ∧ s ∉ RETRY_STATUS) := by
  have e7 : (7 : Nat) = 6 + 1 := rfl
  have hneg : ¬(ctx.fileEx = true ∧ ctx.fileSize > 1024) := by
    rw [hfile]
    rintro ⟨hcontra, -⟩
    cases hcontra
  constructor
  · intro h
    unfold download_one at h
    rw [if_neg hneg, htok, e7] at h
    simp only [Except.ok.injEq] at h
    by_cases h200 : s = 200
    · exfalso
      subst h200
      simp [attemptLoop, hresp, RETRY_STATUS, pdfBody, startsWithPDF] at h
    · by_cases h401 : s = 401
      · exfalso
        subst h401
        have ha := attemptLoop_auth ctx pdfBody hresp 6 ⟨some tk, 0, 0, 0, []⟩
        have h2 : (attemptLoop ctx (6 + 1) ⟨some tk, 0, 0, 0, []⟩).2 = [NetEv.httpGet] := by
          rw [h]
        have hlen := ha.2.1
        rw [h2] at hlen
        simp at hlen
      · by_cases hret : s ∈ RETRY_STATUS
        · exfalso
          have hr := attemptLoop_retry ctx s pdfBody hret hresp 6 ⟨some tk, 0, 0, 0, []⟩
          rw [hr] at h
          simp only [Prod.mk.injEq, List.nil_append] at h
          have hlen := congrArg List.length h.2
          simp at hlen
        · exact ⟨h200, h401, hret⟩
  · rintro ⟨h200, h401, hret⟩
    unfold download_one
    rw [if_neg hneg, htok, e7]
    simp [attemptLoop, hresp, h200, h401, hret]

/-- Witness for C4 at status 404. -/
theorem c4_fatal_status_iff_witness :
    ctx404.tok0 = some "t" ∧ ctx404.fileEx = false ∧
    (∀ i, ctx404.fetch i = Except.ok "t2") ∧
    (∀ i, ctx404.resp i = AttemptResp.ok 404 pdfBody) ∧
    (download_one ctx404 = .ok (⟨false, "failed", 404, 0⟩, [NetEv.httpGet]) ↔
      (404 ≠ 200 ∧ 404 ≠ 401 ∧ 404 ∉ RETRY_STATUS)) :=
  ⟨rfl, rfl, fun _ => rfl, fun _ => rfl,
    c4_fatal_status_iff ctx404 "t" "t2" 404 rfl rfl (fun _ => rfl) (fun _ => rfl)⟩

/-- Claim C5: whatever the oracle, a `download_one` call that returns
(rather than raising) either wrote nothing and did not end `downloaded`,
or ended `downloaded` having written exactly one body — one that passed
the `%PDF` signature check — with status 200 and `bytes_written` equal to
its length.  In particular a 200 response with a non-PDF body yields
terminal `failed`, zero bytes, and no file write. -/
theorem c5_write_only_on_success (ctx : DlCtx) (res : DlResult) (evs : List NetEv)
    (h : download_one ctx = .ok (res, evs)) :
    (writtenBodies evs = [] ∧ res.status_str ≠ "downloaded" ∧
      (res.status_str = "failed" → res.bytes_written = 0)) ∨
    (∃ b, writtenBodies evs = [b] ∧ res = ⟨true, "downloaded", 200, b.length⟩ ∧
      startsWithPDF b = true) := by
  unfold download_one at h
  split at h
  · simp only [Except.ok.injEq, Prod.mk.injEq] at h
    rcases h with ⟨hres, hevs⟩
    left
    have hst : res.status_str = "skipped" := by rw [← hres]
    rw [← hevs, hst]
    exact ⟨rfl, by decide, fun hcontra => absurd hcontra (by decide)⟩
  · rcases htok : ctx.tok0 with - | t
    · rw [htok] at h
      rcases hf : ctx.fetch 0 with e | t2
      · rw [hf] at h; cases h
      · rw [hf] at h
        simp only [Except.ok.injEq] at h
        have hw := attemptLoop_writes ctx 7 ⟨some t2, 1, 0, 0, [.authFetch]⟩
          (by simp [writtenBodies])
        rw [h] at hw
        rcases hw with ⟨hw1, hw2, hw3⟩ | ⟨b, hb1, hb2, hb3⟩
        · left; exact ⟨hw1, by rw [hw2]; decide, fun _ => hw3⟩
        · right; exact ⟨b, hb1, hb2, hb3⟩
    · rw [htok] at h
      simp only [Except.ok.injEq] at h
      have hw := attemptLoop_writes ctx 7 ⟨some t, 0, 0, 0, []⟩ (by simp [writtenBodies])
      rw [h] at hw
      rcases hw with ⟨hw1, hw2, hw3⟩ | ⟨b, hb1, hb2, hb3⟩
      · left; exact ⟨hw1, by rw [hw2]; decide, fun _ => hw3⟩
      · right; exact ⟨b, hb1, hb2, hb3⟩

/-- Witness for C5 at a successful 4-byte PDF download. -/
theorem c5_write_only_on_success_witness :
    download_one ctxSmall1 =
      .ok (⟨true, "downloaded", 200, 4⟩, [NetEv.httpGet, NetEv.fileWrite pdfBody]) ∧
    ((writtenBodies [NetEv.httpGet, NetEv.fileWrite pdfBody] = [] ∧
        (⟨true, "downloaded", 200, 4⟩ : DlResult).status_str ≠ "downloaded" ∧
        ((⟨true, "downloaded", 200, 4⟩ : DlResult).status_str = "failed" →
          (⟨true, "downloaded", 200, 4⟩ : DlResult).bytes_written = 0)) ∨
      (∃ b, writtenBodies [NetEv.httpGet, NetEv.fileWrite pdfBody] = [b] ∧
        (⟨true, "downloaded", 200, 4⟩ : DlResult) = ⟨true, "downloaded", 200, b.length⟩ ∧
        startsWithPDF b = true)) :=
  ⟨rfl, c5_write_only_on_success ctxSmall1 ⟨true, "downloaded", 200, 4⟩
    [NetEv.httpGet, NetEv.fileWrite pdfBody] rfl⟩

/-- Claim C9, counterexample: a first run that ends `downloaded` with a
4-byte PDF leaves a 4-byte file; the second run's pre-check requires size
> 1024, so it does NOT skip — it issues a GET (1 network call) and
re-downloads.  The second run is thus not free of network calls for this
completed task. -/
theorem c9_small_file_redownload_cex :
    download_one ctxSmall1 =
      .ok (⟨true, "downloaded", 200, 4⟩, [NetEv.httpGet, NetEv.fileWrite pdfBody]) ∧
    download_one ctxSmall2 =
      .ok (⟨true, "downloaded", 200, 4⟩, [NetEv.httpGet, NetEv.fileWrite pdfBody]) ∧
    countGets [NetEv.httpGet, NetEv.fileWrite pdfBody] = 1 := ⟨rfl, rfl, rfl⟩

/-- Claim C9 (amended): the second run performs zero network calls for a
completed task PROVIDED the first run's output exceeds the 1024-byte
pre-check threshold: if run one ended `downloaded` with more than 1024
bytes written and run two observes that file intact, run two returns
terminal `skipped` with the existing size and an empty event trace — no
GET and no token fetch.  (Completed tasks at most 1024 bytes large are
re-downloaded; see the counterexample.) -/
theorem c9_second_run_skips (ctx1 ctx2 : DlCtx) (res1 : DlResult) (evs1 : List NetEv)
    (h1 : download_one ctx1 = .ok (res1, evs1))
    (hdl : res1.status_str = "downloaded")
    (hbig : 1024 < res1.bytes_written)
    (hex : ctx2.fileEx = true)
    (hsz : ctx2.fileSize = res1.bytes_written) :
    download_one ctx2 = .ok (⟨true, "skipped", 200, res1.bytes_written⟩, ([] : List NetEv)) := by
  have hc : ctx2.fileEx = true ∧ ctx2.fileSize > 1024 := ⟨hex, by omega⟩
  unfold download_one
  rw [if_pos hc, hsz]

/-- Witness for C9 at a 1025-byte PDF. -/
theorem c9_second_run_skips_witness :
    download_one ctxBig1 =
      .ok (⟨true, "downloaded", 200, 1025⟩, [NetEv.httpGet, NetEv.fileWrite bigBody]) ∧
    (⟨true, "downloaded", 200, 1025⟩ : DlResult).status_str = "downloaded" ∧
    1024 < (⟨true, "downloaded", 200, 1025⟩ : DlResult).bytes_written ∧
    ctxBig2.fileEx = true ∧
    ctxBig2.fileSize = (⟨true, "downloaded", 200, 1025⟩ : DlResult).bytes_written ∧
    download_one ctxBig2 = .ok (⟨true, "skipped", 200, 1025⟩, ([] : List NetEv)) := by
  have h1 : download_one ctxBig1 =
      .ok (⟨true, "downloaded", 200, 1025⟩, [NetEv.httpGet, NetEv.fileWrite bigBody]) := rfl
  exact ⟨h1, rfl, by norm_num, rfl, rfl,
    c9_second_run_skips ctxBig1 ctxBig2 ⟨true, "downloaded", 200, 1025⟩
      [NetEv.httpGet, NetEv.fileWrite bigBody] h1 rfl (by norm_num) rfl rfl⟩

/-- Claim C10: when the pre-check skips (output exists with size > 1024),
`download_one` returns success with `status_str = "skipped"`, HTTP status
200 and the existing file's size as bytes written — with an empty event
trace, i.e. no HTTP request was made — and `run_bulk`'s log row therefore
reports `skipped`, 200, that size, and message `ok`. -/
theorem c10_skip_report (ctx : DlCtx) (t : DownloadTask)
    (hex : ctx.fileEx = true) (hsz : 1024 < ctx.fileSize) :
    download_one ctx = .ok (⟨true, "skipped", 200, ctx.fileSize⟩, ([] : List NetEv)) ∧
    logRowFor t ⟨true, "skipped", 200, ctx.fileSize⟩ =
      ⟨t.country, t.pub_number, t.kind, "skipped", 200, ctx.fileSize, "ok", out_path_for t⟩ := by
  constructor
  · have hc : ctx.fileEx = true ∧ ctx.fileSize > 1024 := ⟨hex, hsz⟩
    unfold download_one
    rw [if_pos hc]
  · simp [logRowFor]

/-- Witness for C10 at a 2000-byte pre-existing output. -/
theorem c10_skip_report_witness :
    ctxSkip.fileEx = true ∧ 1024 < ctxSkip.fileSize ∧
    (download_one ctxSkip = .ok (⟨true, "skipped", 200, ctxSkip.fileSize⟩, ([] : List NetEv)) ∧
      logRowFor taskEx ⟨true, "skipped", 200, ctxSkip.fileSize⟩ =
        ⟨taskEx.country, taskEx.pub_number, taskEx.kind, "skipped", 200, ctxSkip.fileSize,
          "ok", out_path_for taskEx⟩) :=
  ⟨rfl, by decide, c10_skip_report ctxSkip taskEx rfl (by decide)⟩

/-! ### Claims about the rate limiter -/

/-- One `wait()` call records a timestamp at least `min_interval` after the
previously recorded one. -/
lemma waitStep_gap (mi last : ℚ) (o : WaitObs) (h : waitObsValid mi last o) :
    last + mi ≤ waitStep mi last o := by
  rcases h with ⟨h1, h2⟩
  unfold waitStep
  split_ifs at h2 with hd
  · linarith
  · push_neg at hd
    linarith

/-- Consecutive recorded timestamps of a serialized `wait()` trace are at
least `mi` apart. -/
lemma runWaits_chain' (mi : ℚ) :
    ∀ (os : List WaitObs) (last : ℚ), validTrace mi last os →
      List.Chain' (fun a b => a + mi ≤ b) (runWaits mi last os) := by
  intro os
  induction os with
  | nil => intro last _; exact List.chain'_nil
  | cons o os ih =>
    intro last hv
    show List.Chain' _ (waitStep mi last o :: runWaits mi (waitStep mi last o) os)
    rw [List.chain'_cons']
    refine ⟨?_, ih _ hv.2⟩
    intro y hy
    cases os with
    | nil => simp [runWaits] at hy
    | cons o2 os2 =>
      simp only [runWaits, List.head?_cons, Option.mem_def, Option.some.injEq] at hy
      rw [← hy]
      exact waitStep_gap mi (waitStep mi last o) o2 hv.2.1

/-- Claim C3: for any serialized sequence of `wait()` calls on one shared
`PacingState` (the lock serializes the read-compute-sleep-write section),
each call's recorded dispatch timestamp is at least
`minInterval = 1/ratePerSecond` after the previously recorded one — the
gap between any two consecutive recorded timestamps is at least
`minInterval` (for any rate above the code's 0.0001 clamp, where
`1.0 / max(rate_per_sec, 0.0001)` equals `1/ratePerSecond`). -/
theorem c3_pacing_invariant (rate_per_sec last0 : ℚ) (os : List WaitObs)
    (hr : 1 / 10000 ≤ rate_per_sec)
    (hv : validTrace (min_interval rate_per_sec) last0 os) :
    List.Chain' (fun a b => a + 1 / rate_per_sec ≤ b)
      (runWaits (min_interval rate_per_sec) last0 os) := by
  have hmi : min_interval rate_per_sec = 1 / rate_per_sec := by
    unfold min_interval
    rw [max_eq_left hr]
  rw [hmi] at hv ⊢
  exact runWaits_chain' (1 / rate_per_sec) os last0 hv

/-- A rate-1 trace: first call finds the deficit already paid (gap 5 ≥ 1),
second call must sleep 1 second and records at 7. -/
def wobsEx : List WaitObs := [⟨5, 6⟩, ⟨6, 7⟩]

/-- Witness for C3 at rate 1/s and the two-call trace `wobsEx`. -/
theorem c3_pacing_invariant_witness :
    (1 / 10000 : ℚ) ≤ 1 ∧ validTrace (min_interval 1) 0 wobsEx ∧
    List.Chain' (fun a b => a + 1 / 1 ≤ b) (runWaits (min_interval 1) 0 wobsEx) := by
  have hmi : min_interval 1 = 1 := by
    unfold min_interval
    rw [max_eq_left (by norm_num)]
    norm_num
  have hv : validTrace (min_interval 1) 0 wobsEx := by
    simp only [wobsEx, validTrace, waitObsValid, waitStep, hmi]
    norm_num
  exact ⟨by norm_num, hv, c3_pacing_invariant 1 0 wobsEx (by norm_num) hv⟩

/-! ### Claims about the bulk downloader -/

/-- Claim C6: `is_fully_downloaded` returns `True` exactly when the path
exists as a regular file, its size is strictly positive, and the HEAD
probe (`head_content_length`) yields a `Content-Length` equal to the local
size; in particular whenever `head_content_length` returns `None` — probe
failing through its whole retry budget, or a success without the header —
the result is `False`, forcing a re-download. -/
theorem c6_remote_size_match (st : FileStat) (atts : List (Except Unit (Option Int))) :
    is_fully_downloaded st atts = true ↔
      (st.pathExists = true ∧ st.isFile = true ∧ 0 < st.size ∧
        head_content_length atts = some st.size) := by
  rcases st with ⟨pe, isf, sz⟩
  unfold is_fully_downloaded
  cases hcl : head_content_length atts with
  | none => cases pe <;> cases isf <;> simp <;> split_ifs <;> simp_all
  | some r =>
    cases pe <;> cases isf <;> simp
    intro _
    exact eq_comm

/-- Folding events that contain no rename leaves the final path untouched. -/
lemma applyEvents_no_rename :
    ∀ (evs : List FsEvent) (fs0 : Fs), FsEvent.renameTmpToFinal ∉ evs →
      (applyEvents fs0 evs).finalContent = fs0.finalContent := by
  intro evs
  induction evs with
  | nil => intro fs0 _; rfl
  | cons e evs ih =>
    intro fs0 h
    have he : e ≠ FsEvent.renameTmpToFinal := by
      intro hh
      exact h (hh ▸ List.mem_cons_self _ _)
    have h2 : FsEvent.renameTmpToFinal ∉ evs := fun hh => h (List.mem_cons_of_mem _ hh)
    have hs : applyEvents fs0 (e :: evs) = applyEvents (applyEvent fs0 e) evs := rfl
    rw [hs, ih _ h2]
    cases e with
    | openTmp => rfl
    | writeTmp b => rfl
    | renameTmpToFinal => exact absurd rfl he

lemma rename_not_mem_writes (bs : List (List Nat)) :
    FsEvent.renameTmpToFinal ∉ bs.map FsEvent.writeTmp := by
  intro h
  rcases List.mem_map.mp h with ⟨b, -, hb⟩
  cases hb

/-- Chunk writes append to the tmp file and touch nothing else. -/
lemma applyEvents_writes :
    ∀ (bs : List (List Nat)) (fs : Fs) (c : List Nat), fs.tmpContent = some c →
      applyEvents fs (bs.map FsEvent.writeTmp) = ⟨fs.finalContent, some (c ++ bs.flatten)⟩ := by
  intro bs
  induction bs with
  | nil =>
    intro fs c hc
    cases fs with
    | mk fc tc =>
      simp only [Fs.mk.injEq] at hc ⊢
      simp [applyEvents, hc]
  | cons b bs ih =>
    intro fs c hc
    have hs : applyEvents fs ((b :: bs).map FsEvent.writeTmp) =
        applyEvents (applyEvent fs (FsEvent.writeTmp b)) (bs.map FsEvent.writeTmp) := rfl
    have hw : applyEvent fs (FsEvent.writeTmp b) = ⟨fs.finalContent, some (c ++ b)⟩ := by
      simp [applyEvent, hc]
    rw [hs, hw, ih ⟨fs.finalContent, some (c ++ b)⟩ (c ++ b) rfl]
    simp [List.append_assoc]

/-- Claim C7: `download_stream` writes all received bytes to the sibling
`.part` path (the tmp path is literally the output path with `".part"`
appended, a distinct path), and the final path changes only through the
single terminal rename: an HTTP error or an interruption after any number
of chunks leaves the final path exactly as it was, every proper prefix of
a completed run's events leaves it as it was, and the completed run's
rename puts the full concatenation of the received chunks there. -/
theorem c7_atomic_stream (out : String) (chunks : List (List Nat)) (fs0 : Fs) :
    (tmp_path out = out ++ ".part" ∧ tmp_path out ≠ out) ∧
    ((applyEvents fs0 (download_stream_events chunks StreamOutcome.httpError)).finalContent
      = fs0.finalContent) ∧
    (∀ k, (applyEvents fs0
        (download_stream_events chunks (StreamOutcome.interrupted k))).finalContent
      = fs0.finalContent) ∧
    (∀ p, p <+: download_stream_events chunks StreamOutcome.completed →
      p ≠ download_stream_events chunks StreamOutcome.completed →
      (applyEvents fs0 p).finalContent = fs0.finalContent) ∧
    ((applyEvents fs0 (download_stream_events chunks StreamOutcome.completed)).finalContent
      = some chunks.flatten) := by
  have hfull : download_stream_events chunks StreamOutcome.completed
      = (FsEvent.openTmp :: (nonemptyChunks chunks).map FsEvent.writeTmp)
        ++ [FsEvent.renameTmpToFinal] := by
    simp [download_stream_events]
  refine ⟨⟨rfl, ?_⟩, rfl, ?_, ?_, ?_⟩
  · intro h
    have hlen := congrArg String.length h
    rw [tmp_path, String.length_append] at hlen
    have h5 : ".part".length = 5 := rfl
    rw [h5] at hlen
    omega
  · intro k
    apply applyEvents_no_rename
    intro hmem
    rcases List.mem_cons.mp hmem with h | h
    · cases h
    · exact rename_not_mem_writes _ h
  · intro p hp hne
    rw [hfull] at hp hne
    apply applyEvents_no_rename
    have hl : (FsEvent.openTmp :: (nonemptyChunks chunks).map FsEvent.writeTmp)
        <+: (FsEvent.openTmp :: (nonemptyChunks chunks).map FsEvent.writeTmp)
          ++ [FsEvent.renameTmpToFinal] := ⟨[FsEvent.renameTmpToFinal], rfl⟩
    have hlen : p.length ≤
        (FsEvent.openTmp :: (nonemptyChunks chunks).map FsEvent.writeTmp).length := by
      rcases hp with ⟨t, ht⟩
      by_cases hte : t = []
      · subst hte
        rw [List.append_nil] at ht
        exact absurd ht hne
      · have hlt := congrArg List.length ht
        rw [List.length_append, List.length_append, List.length_cons] at hlt
        have ht1 : 0 < t.length := List.length_pos.mpr hte
        have hr1 : ([FsEvent.renameTmpToFinal] : List FsEvent).length = 1 := rfl
        rw [hr1] at hlt
        rw [List.length_cons]
        omega
    have hp2 := List.prefix_of_prefix_length_le hp hl hlen
    intro hmem
    rcases List.mem_cons.mp (hp2.subset hmem) with h | h
    · cases h
    · exact rename_not_mem_writes _ h
  · rw [hfull]
    have h1 : applyEvents fs0
        ((FsEvent.openTmp :: (nonemptyChunks chunks).map FsEvent.writeTmp)
          ++ [FsEvent.renameTmpToFinal])
        = applyEvents
            (applyEvents fs0 (FsEvent.openTmp :: (nonemptyChunks chunks).map FsEvent.writeTmp))
            [FsEvent.renameTmpToFinal] := by
      simp [applyEvents, List.foldl_append]
    have h2 : applyEvents fs0 (FsEvent.openTmp :: (nonemptyChunks chunks).map FsEvent.writeTmp)
        = applyEvents (⟨fs0.finalContent, some []⟩ : Fs)
            ((nonemptyChunks chunks).map FsEvent.writeTmp) := rfl
    rw [h1, h2, applyEvents_writes (nonemptyChunks chunks) ⟨fs0.finalContent, some []⟩ [] rfl]
    show some ([] ++ (nonemptyChunks chunks).flatten) = some chunks.flatten
    rw [List.nil_append]
    unfold nonemptyChunks
    rw [List.flatten_filter_not_isEmpty]

/-- `pick_first` finds nothing exactly when every candidate key is absent
or bound to `null`. -/
lemma pick_first_eq_none_iff (d : List (String × JVal)) :
    ∀ ks : List String, pick_first d ks = none ↔
      ∀ k ∈ ks, ∀ v, getKey d k = some v → v.isNull = true := by
  intro ks
  induction ks with
  | nil => simp [pick_first]
  | cons k ks ih =>
    cases hk : getKey d k with
    | none =>
      have hpf : pick_first d (k :: ks) = pick_first d ks := by
        simp [pick_first, hk]
      rw [hpf, ih]
      constructor
      · intro h k' hk' v' hv'
        rcases List.mem_cons.mp hk' with rfl | hm
        · rw [hk] at hv'
          cases hv'
        · exact h k' hm v' hv'
      · intro h k' hm v' hv'
        exact h k' (List.mem_cons_of_mem _ hm) v' hv'
    | some v =>
      by_cases hnull : v.isNull = true
      · have hpf : pick_first d (k :: ks) = pick_first d ks := by
          simp [pick_first, hk, hnull]
        rw [hpf, ih]
        constructor
        · intro h k' hk' v' hv'
          rcases List.mem_cons.mp hk' with rfl | hm
          · rw [hk] at hv'
            injection hv' with hvv
            rw [← hvv]
            exact hnull
          · exact h k' hm v' hv'
        · intro h k' hm v' hv'
          exact h k' (List.mem_cons_of_mem _ hm) v' hv'
      · have hpf : pick_first d (k :: ks) = some v := by
          simp [pick_first, hk, hnull]
        rw [hpf]
        constructor
        · intro h
          cases h
        · intro h
          exact absurd (h k (List.mem_cons_self _ _) v hk) hnull

/-- Claim C8: delivery-id lookup tries the candidate keys
`["id", "deliveryId", "delivery_id", "deliveryID", "uuid", "key"]` in
order, returning the first present non-null value; it returns `none`
(it is a total function — nothing is thrown) exactly when every candidate
is absent or null; when the top level yields nothing, one nesting level
among `delivery`, `meta`, `data` is tried in that order — so
`{"meta": {"id": "X"}}` resolves to `"X"`, and a `delivery` nest wins over
a `meta` nest. -/
theorem c8_delivery_id_lookup :
    delivery_id_keys = ["id", "deliveryId", "delivery_id", "deliveryID", "uuid", "key"] ∧
    (∀ (d : List (String × JVal)) (ks : List String),
      pick_first d ks = none ↔ ∀ k ∈ ks, ∀ v, getKey d k = some v → v.isNull = true) ∧
    (∀ (d : List (String × JVal)) (k : String) (ks : List String) (v : JVal),
      getKey d k = some v → v.isNull = false → pick_first d (k :: ks) = some v) ∧
    (∀ (d : List (String × JVal)) (k : String) (ks : List String),
      (∀ v, getKey d k = some v → v.isNull = true) →
      pick_first d (k :: ks) = pick_first d ks) ∧
    (∀ (d : List (String × JVal)) (v : JVal),
      find_delivery_id d = some v → resolve_delivery_id d = some v) ∧
    resolve_delivery_id [("meta", JVal.obj [("id", JVal.str "X")])] = some (JVal.str "X") ∧
    resolve_delivery_id
        [("delivery", JVal.obj [("id", JVal.str "A")]),
          ("meta", JVal.obj [("id", JVal.str "B")])] = some (JVal.str "A") := by
  refine ⟨rfl, pick_first_eq_none_iff, ?_, ?_, ?_, rfl, rfl⟩
  · intro d k ks v h1 h2
    simp [pick_first, h1, h2]
  · intro d k ks h
    cases hk : getKey d k with
    | none => simp [pick_first, hk]
    | some v => simp [pick_first, hk, h v hk]
  · intro d v h
    simp [resolve_delivery_id, h]
